import Mathlib

/-!
Verification development for the cwjson in-memory JSON document model
(src/cwjson.h, src/cwjson.cpp).

The embedding works on byte lists: a C string (const char pointer) is
modelled as the list of its bytes up to, but not including, the NUL
terminator.  Reading the terminator (or past the end of the buffer) is
modelled by peek returning 0 on the empty list, and skip past the end
staying at the empty list.  std::string values built by the parser are
modelled as byte lists as well.  The C double payload of Number nodes is
modelled by exact rational arithmetic (ℚ): the accumulation and scaling
algorithm of Root::parse_number is translated operation for operation,
with IEEE-754 rounding idealised away.  Recursive parsing functions take
an explicit fuel argument; Root::parse supplies a fuel that is large
enough for every run that terminates in the source, and exhaustion is a
distinct error that none of the concrete evaluations below hits.
-/

/-- Error values thrown by the source, one constructor per distinct throw
site message.  JsonError and its subclass JsonNull are collapsed into one
type; the spec names for them are noted next to each constructor. -/
inductive Err where
  /-- cwjson.cpp:337, "expected ':' before object value" -/
  | expectedColon
  /-- cwjson.cpp:352, "expected '}' or ',' after object element" (spec: ExpectedDelimiter) -/
  | expectedDelimiterObject
  /-- cwjson.cpp:385, "expected ']' or ',' after array element" (spec: ExpectedDelimiter) -/
  | expectedDelimiterArray
  /-- cwjson.cpp:448, "unexpected character" (spec: UnexpectedCharacter) -/
  | unexpectedCharacter
  /-- cwjson.cpp:469, "leading zeros are not allowed" (spec: LeadingZero) -/
  | leadingZero
  /-- cwjson.cpp:484, "expected digit after '.'" (spec: ExpectedDigit) -/
  | expectedDigitFrac
  /-- cwjson.cpp:506, "expected digit after 'e' or 'E'" (spec: ExpectedDigit) -/
  | expectedDigitExp
  /-- cwjson.cpp:594, "bad unicode character" (spec: BadUnicode) -/
  | badUnicode
  /-- cwjson.cpp:599 and 602, "expected second unicode surrogate part" (spec: MissingSurrogatePair) -/
  | missingSurrogatePair
  /-- cwjson.cpp:674, "bad escaped character" (spec: BadEscape) -/
  | badEscape
  /-- cwjson.cpp:209, 244, 271, JsonNull "index out of range" (spec: IndexOutOfRange) -/
  | indexOutOfRange
  /-- model artifact: recursion fuel exhausted; unreachable for the fuel
  supplied by the parse entry point on any input evaluated below -/
  | outOfFuel
deriving DecidableEq, Repr

/-- Reading the byte at the cursor: a dereference of the C pointer.  On the
empty list this is the NUL terminator, value 0. -/
def peek (l : List Nat) : Nat := l.headD 0

/-- Root::skip (cwjson.h:542): advance the cursor.  Past the end of the
buffer the model stays at the end. -/
def skip (l : List Nat) (count : Nat) : List Nat := l.drop count

/-- Root::isDigit (cwjson.h:547). -/
def isDigitB (c : Nat) : Bool := decide (0x30 ≤ c ∧ c ≤ 0x39)

/-- Root::whitespace (cwjson.h:535): skip space, tab, LF, CR. -/
def whitespace : List Nat → List Nat
  | [] => []
  | b :: rest =>
    if b = 0x20 ∨ b = 0x09 ∨ b = 0x0A ∨ b = 0x0D then whitespace rest else b :: rest

/-- Loop body of Root::parse_unicode (cwjson.cpp:659): fold the next
4 hex digits into an accumulator, failing on a non-hex byte. -/
def pu_loop : Nat → Nat → List Nat → Except Err (Nat × List Nat)
  | 0, v, l => .ok (v, l)
  | i + 1, v, l =>
    let hex := peek l
    if 0x30 ≤ hex ∧ hex ≤ 0x39 then pu_loop i ((v <<< 4) + (hex - 0x30)) (skip l 1)
    else if 0x61 ≤ hex ∧ hex ≤ 0x66 then pu_loop i ((v <<< 4) + (hex - 0x61 + 10)) (skip l 1)
    else if 0x41 ≤ hex ∧ hex ≤ 0x46 then pu_loop i ((v <<< 4) + (hex - 0x41 + 10)) (skip l 1)
    else .error .badEscape

/-- Root::parse_unicode (cwjson.cpp:659): read exactly four hex digits. -/
def parse_unicode (l : List Nat) : Except Err (Nat × List Nat) := pu_loop 4 0 l

/-- UTF-8 encoding step of Root::parse_string (cwjson.cpp:611): lead byte
chosen by magnitude, then the continuation-byte loop unrolled. -/
def utf8bytes (u : Nat) : List Nat :=
  if u < 0x80 then [u]
  else if u < 0x800 then [0xC0 ||| (u >>> 6), 0x80 ||| (u &&& 0x3F)]
  else if u < 0x10000 then
    [0xE0 ||| (u >>> 12), 0x80 ||| ((u >>> 6) &&& 0x3F), 0x80 ||| (u &&& 0x3F)]
  else
    [0xF0 ||| (u >>> 18), 0x80 ||| ((u >>> 12) &&& 0x3F),
     0x80 ||| ((u >>> 6) &&& 0x3F), 0x80 ||| (u &&& 0x3F)]

/-- Case 'u' of the escape switch in Root::parse_string (cwjson.cpp:586-638),
starting at the byte after the letter u: decode one 4-hex-digit unit, reject
a standalone low surrogate or a zero unit, require a backslash-u
continuation after a high surrogate (the continuation unit itself is read
by parse_unicode but its value is not range-checked), combine, and encode
the resulting code point as UTF-8 bytes. -/
def parse_uescape (l : List Nat) : Except Err (List Nat × List Nat) :=
  match parse_unicode l with
  | .error e => .error e
  | .ok (u, rest) =>
    if (0xDC00 ≤ u ∧ u ≤ 0xDFFF) ∨ u = 0 then .error .badUnicode
    else if 0xD800 ≤ u ∧ u ≤ 0xDBFF then
      if peek rest ≠ 0x5C then .error .missingSurrogatePair
      else if peek (skip rest 1) ≠ 0x75 then .error .missingSurrogatePair
      else
        match parse_unicode (skip (skip rest 1) 1) with
        | .error e => .error e
        | .ok (u2, rest2) =>
          .ok (utf8bytes (0x10000 + (((u &&& 0x3FF) <<< 10) ||| (u2 &&& 0x3FF))), rest2)
    else .ok (utf8bytes u, rest)

/-- Scanning loop of Root::parse_string (cwjson.cpp:553-648).  The source
accumulates literal runs between escapes and flushes them in one append;
the model appends byte by byte, which yields the same value.  The loop
runs while the byte at the cursor is neither a quote nor NUL; afterwards
(cwjson.cpp:653) a NUL terminator is not consumed while a closing quote
is.  Fuel: every iteration consumes at least one byte, so the caller
passes the input length plus one and exhaustion is unreachable. -/
def ps_loop : Nat → List Nat → List Nat → Except Err (List Nat × List Nat)
  | 0, _, _ => .error .outOfFuel
  | fuel + 1, acc, l =>
    if peek l ≠ 0x22 ∧ peek l ≠ 0 then
      if peek l ≠ 0x5C then ps_loop fuel (acc ++ [peek l]) (skip l 1)
      else
        let l1 := skip l 1
        if peek l1 = 0x62 then ps_loop fuel (acc ++ [0x08]) (skip l1 1)
        else if peek l1 = 0x66 then ps_loop fuel (acc ++ [0x0C]) (skip l1 1)
        else if peek l1 = 0x6E then ps_loop fuel (acc ++ [0x0A]) (skip l1 1)
        else if peek l1 = 0x72 then ps_loop fuel (acc ++ [0x0D]) (skip l1 1)
        else if peek l1 = 0x74 then ps_loop fuel (acc ++ [0x09]) (skip l1 1)
        else if peek l1 = 0x75 then
          match parse_uescape (skip l1 1) with
          | .error e => .error e
          | .ok (bs, rest) => ps_loop fuel (acc ++ bs) rest
        else ps_loop fuel (acc ++ [peek l1]) (skip l1 1)
    else if peek l = 0 then .ok (acc, l)
    else .ok (acc, skip l 1)

/-- Root::parse_string (cwjson.cpp:543): skip the opening quote without
checking it, return the empty string on an immediate closing quote, and
otherwise scan.  An unterminated string is not an error: the scan stops
at the NUL terminator and the value read so far is returned. -/
def parse_string (l : List Nat) : Except Err (List Nat × List Nat) :=
  let l1 := skip l 1
  if peek l1 = 0x22 then .ok ([], skip l1 1)
  else ps_loop (l1.length + 1) [] l1

/-- Integral-digit loop of Root::parse_number (cwjson.cpp:473). -/
def digitRun : ℚ → List Nat → ℚ × List Nat
  | n, [] => (n, [])
  | n, c :: rest =>
    if isDigitB c then digitRun (n * 10 + ((c - 0x30 : Nat) : ℚ)) rest else (n, c :: rest)

/-- Fraction-digit loop of Root::parse_number (cwjson.cpp:486): same
accumulation, also counting the fractional digits. -/
def fracRun : ℚ → Nat → List Nat → ℚ × Nat × List Nat
  | n, f, [] => (n, f, [])
  | n, f, c :: rest =>
    if isDigitB c then fracRun (n * 10 + ((c - 0x30 : Nat) : ℚ)) (f + 1) rest
    else (n, f, c :: rest)

/-- Exponent-digit loop of Root::parse_number (cwjson.cpp:508). -/
def expRun : Nat → List Nat → Nat × List Nat
  | e, [] => (e, [])
  | e, c :: rest =>
    if isDigitB c then expRun (e * 10 + (c - 0x30)) rest else (e, c :: rest)

/-- Scaling loop of Root::parse_number (cwjson.cpp:518-536): binary
exponentiation of the power-of-ten factor, dividing when the net exponent
is negative and multiplying otherwise.  The first argument is fuel equal
to the initial e, which dominates the number of halvings. -/
def scaleLoop : Nat → Nat → ℚ → ℚ → Bool → ℚ
  | 0, _, _, number, _ => number
  | fuel + 1, e, e10, number, neg =>
    if e = 0 then number
    else
      scaleLoop fuel (e / 2) (e10 * e10)
        (if e % 2 = 1 then (if neg then number / e10 else number * e10) else number) neg

/-- Root::parse_number (cwjson.cpp:451): optional sign, integral part with
the leading-zero check, optional fraction requiring a digit, optional
exponent requiring a digit, then the scaling loop.  Note that no digit is
required in the integral part: a missing mantissa leaves the accumulator
at zero. -/
def parse_number (l0 : List Nat) : Except Err (ℚ × List Nat) :=
  let s1 : ℚ × List Nat := if peek l0 = 0x2D then (-1, skip l0 1) else (1, l0)
  let sign := s1.1
  let l1 := s1.2
  let intStep : Except Err (ℚ × List Nat) :=
    if peek l1 = 0x30 then
      if isDigitB (peek (skip l1 1)) then .error .leadingZero else .ok (0, skip l1 1)
    else if isDigitB (peek l1) then .ok (digitRun 0 l1)
    else .ok (0, l1)
  match intStep with
  | .error e => .error e
  | .ok (n1, l2) =>
    let fracStep : Except Err (ℚ × Nat × List Nat) :=
      if peek l2 = 0x2E then
        if isDigitB (peek (skip l2 1)) then .ok (fracRun n1 0 (skip l2 1))
        else .error .expectedDigitFrac
      else .ok (n1, 0, l2)
    match fracStep with
    | .error e => .error e
    | .ok (n2, frac, l3) =>
      let expStep : Except Err (Int × List Nat) :=
        if peek l3 = 0x65 ∨ peek l3 = 0x45 then
          let l4 := skip l3 1
          let s2 : Int × List Nat :=
            if peek l4 = 0x2D then (-1, skip l4 1)
            else if peek l4 = 0x2B then (1, skip l4 1)
            else (1, l4)
          if isDigitB (peek s2.2) then
            let er := expRun 0 s2.2
            .ok (s2.1 * (er.1 : Int), er.2)
          else .error .expectedDigitExp
        else .ok (0, l3)
      match expStep with
      | .error e => .error e
      | .ok (sexp, l7) =>
        let number := sign * n2
        let netExp : Int := sexp - (frac : Int)
        .ok (scaleLoop netExp.natAbs netExp.natAbs 10 number (netExp < 0), l7)

/-- Tree nodes (class Value and its subclasses, cwjson.h:85-252).  Every
node carries its m_name (a byte string, empty for array and root
children); Object and Array carry their ordered child list, the leaf
kinds carry their payload. -/
inductive JVal where
  | obj (name : List Nat) (children : List JVal)
  | arr (name : List Nat) (children : List JVal)
  | str (name : List Nat) (value : List Nat)
  | num (name : List Nat) (value : ℚ)
  | boolean (name : List Nat) (value : Bool)
  | null (name : List Nat)

/-- Value::getNameStr (cwjson.h:114). -/
def JVal.name : JVal → List Nat
  | .obj n _ => n
  | .arr n _ => n
  | .str n _ => n
  | .num n _ => n
  | .boolean n _ => n
  | .null n => n

/-- Value::setName (cwjson.h:116). -/
def JVal.setName (nm : List Nat) : JVal → JVal
  | .obj _ c => .obj nm c
  | .arr _ c => .arr nm c
  | .str _ v => .str nm v
  | .num _ v => .num nm v
  | .boolean _ v => .boolean nm v
  | .null _ => .null nm

mutual

/-- Root::parse_value (cwjson.cpp:312).  The first component of the result
is the list of nodes this call inserted into the parent via
Value::insertValueInt: the source links a new Object or Array into the
parent before parsing its body, so on an error inside a container the
partially built container has already been inserted, while a scalar is
inserted only after its token parsed completely.  The second component is
the remaining input on success or the thrown error. -/
def parse_value : Nat → List Nat → List Nat → List JVal × Except Err (List Nat)
  | 0, _, _ => ([], .error .outOfFuel)
  | fuel + 1, name, l0 =>
    let l := whitespace l0
    if peek l = 0x7B then
      let la := whitespace (skip l 1)
      if peek la = 0x7D then ([.obj name []], .ok (skip la 1))
      else
        let body := parse_object_body fuel [] la
        ([.obj name body.1], body.2)
    else if peek l = 0x5B then
      let la := whitespace (skip l 1)
      if peek la = 0x5D then ([.arr name []], .ok (skip la 1))
      else
        let body := parse_array_body fuel [] la
        ([.arr name body.1], body.2)
    else if peek l = 0x22 then
      match parse_string l with
      | .error e => ([], .error e)
      | .ok (s, rest) => ([.str name s], .ok rest)
    else if peek l = 0x74 then
      if l.take 4 = [0x74, 0x72, 0x75, 0x65] then ([.boolean name true], .ok (skip l 4))
      else ([], .error .unexpectedCharacter)
    else if peek l = 0x66 then
      if l.take 5 = [0x66, 0x61, 0x6C, 0x73, 0x65] then ([.boolean name false], .ok (skip l 5))
      else ([], .error .unexpectedCharacter)
    else if peek l = 0x6E then
      if l.take 4 = [0x6E, 0x75, 0x6C, 0x6C] then ([.null name], .ok (skip l 4))
      else ([], .error .unexpectedCharacter)
    else if peek l = 0x2D ∨ isDigitB (peek l) = true then
      match parse_number l with
      | .error e => ([], .error e)
      | .ok (q, rest) => ([.num name q], .ok rest)
    else ([], .error .unexpectedCharacter)

/-- Object-member loop of Root::parse_value (cwjson.cpp:329-353): parse a
key with parse_string (which does not check for an opening quote), require
a colon, parse the value into the object, then continue on a comma, close
on a brace, and fail otherwise.  The accumulated children are returned
even when an iteration fails, since the source already linked them. -/
def parse_object_body : Nat → List JVal → List Nat → List JVal × Except Err (List Nat)
  | 0, children, _ => (children, .error .outOfFuel)
  | fuel + 1, children, l0 =>
    let l1 := whitespace l0
    match parse_string l1 with
    | .error e => (children, .error e)
    | .ok (key, l2) =>
      let l3 := whitespace l2
      if peek l3 ≠ 0x3A then (children, .error .expectedColon)
      else
        let pv := parse_value fuel key (skip l3 1)
        let children2 := children ++ pv.1
        match pv.2 with
        | .error e => (children2, .error e)
        | .ok l5 =>
          let l6 := whitespace l5
          if peek l6 = 0x2C then parse_object_body fuel children2 (skip l6 1)
          else if peek l6 = 0x7D then (children2, .ok (skip l6 1))
          else (children2, .error .expectedDelimiterObject)

/-- Array-element loop of Root::parse_value (cwjson.cpp:369-386). -/
def parse_array_body : Nat → List JVal → List Nat → List JVal × Except Err (List Nat)
  | 0, children, _ => (children, .error .outOfFuel)
  | fuel + 1, children, l0 =>
    let pv := parse_value fuel [] l0
    let children2 := children ++ pv.1
    match pv.2 with
    | .error e => (children2, .error e)
    | .ok l2 =>
      let l3 := whitespace l2
      if peek l3 = 0x2C then parse_array_body fuel children2 (skip l3 1)
      else if peek l3 = 0x5D then (children2, .ok (skip l3 1))
      else (children2, .error .expectedDelimiterArray)

end

/-- Fuel supplied to the recursive parser: every two fuel units consume at
least one input byte, so this budget is never exhausted. -/
def parseFuel (l : List Nat) : Nat := 2 * l.length + 8

/-- Observable state of a Root (cwjson.h:494): its m_firstChild, whether
its m_lastChild pointer is non-null (after Root::parse deletes the old
child the pointer still holds the stale non-null address, so only
null-or-not is observable), and its m_length. -/
structure RootSt where
  first : Option JVal
  hasLast : Bool
  len : Nat

/-- Value::insertValueInt (cwjson.cpp:29) as executed with a Root as the
parent.  When m_lastChild is null the node becomes the single child;
otherwise the source writes through m_lastChild (which after Root::parse
is a dangling pointer — undefined behaviour modelled as having no
observable effect on the remaining fields), leaves m_firstChild untouched,
and increments m_length. -/
def insertValueIntRoot (st : RootSt) (v : JVal) : RootSt :=
  if st.hasLast = false then { first := some v, hasLast := true, len := 1 }
  else { first := st.first, hasLast := true, len := st.len + 1 }

/-- Root::parse (cwjson.cpp:299): delete the previous child and null out
m_firstChild — but neither m_lastChild nor m_length is reset — then parse
one value with this root as the parent. -/
def RootSt.parse (st : RootSt) (json : List Nat) : RootSt × Except Err (List Nat) :=
  let st1 : RootSt := { st with first := none }
  let pv := parse_value (parseFuel json) [] json
  (pv.1.foldl insertValueIntRoot st1, pv.2)

/-- A freshly constructed Root (cwjson.h:497): no child, null m_lastChild,
zero length. -/
def emptyRoot : RootSt := ⟨none, false, 0⟩

/-- Discriminator for Except results: true exactly when the call threw. -/
def isErr {α : Type} : Except Err α → Bool
  | .error _ => true
  | .ok _ => false

/-- Object::linkValue (cwjson.cpp:115).  The null-pointer guard is outside
the model (values exist); the already-linked guard at cwjson.cpp:120-121
reads JsonError("value is already linked to JSON object"); — it
constructs the exception object but never throws it, so the check has no
effect and execution always continues; the model therefore carries the
valueIsLinked flag (value has a non-null m_next, m_parent or m_prev) and,
like the source, ignores it.  Scan the children: on a name match the new
node takes the old child's place via Value::swapValueInt (cwjson.cpp:62)
and the old child is deleted; otherwise append via Value::insertValueInt. -/
def Object.linkValue (name : List Nat) (v : JVal) (valueIsLinked : Bool) :
    List JVal → List JVal
  | [] => [v.setName name]
  | c :: rest =>
    if c.name = name then v.setName name :: rest
    else c :: Object.linkValue name v valueIsLinked rest

/-- Object::removeValue (cwjson.cpp:154): scan for the name, detach and
delete on a match; falling off the end of the list is not an error. -/
def Object.removeValue (name : List Nat) : List JVal → List JVal
  | [] => []
  | c :: rest => if c.name = name then rest else c :: Object.removeValue name rest

/-- Scan loop of Array::getValue (cwjson.cpp:198): the counter-based
linear scan, with the condition i++ >= idx of the source. -/
def arrGetLoop : Int → Int → List JVal → Except Err JVal
  | _, _, [] => .error .indexOutOfRange
  | idx, i, c :: rest => if i ≥ idx then .ok c else arrGetLoop idx (i + 1) rest

/-- Array::getValue (cwjson.cpp:198); the index parameter is a C int. -/
def Array.getValue (idx : Int) (l : List JVal) : Except Err JVal := arrGetLoop idx 0 l

/-- Scan loop of Array::removeValue (cwjson.cpp:257).  The source edits
the sibling list in place; the functional model rebuilds the scanned
prefix around the recursive call, mapping over the result so that an
error propagates unchanged. -/
def arrRemoveLoop : Int → Int → List JVal → Except Err (List JVal)
  | _, _, [] => .error .indexOutOfRange
  | pos, i, c :: rest =>
    if i ≥ pos then .ok rest
    else (arrRemoveLoop pos (i + 1) rest).map (fun rest2 => c :: rest2)

/-- Array::removeValue (cwjson.cpp:257). -/
def Array.removeValue (pos : Int) (l : List JVal) : Except Err (List JVal) :=
  arrRemoveLoop pos 0 l

/-- Scan loop of Array::linkValueInt (cwjson.cpp:224-244): at the matching
position, where = 1 splices the node before the current child
(Value::insertValueBeforeInt, cwjson.cpp:47) and where = 2 replaces the
current child (Value::swapValueInt plus delete). -/
def arrLinkLoop : JVal → Nat → Int → Int → List JVal → Except Err (List JVal)
  | _, _, _, _, [] => .error .indexOutOfRange
  | v, wh, pos, i, c :: rest =>
    if i ≥ pos then
      if wh = 1 then .ok (v :: c :: rest) else .ok (v :: rest)
    else (arrLinkLoop v wh pos (i + 1) rest).map (fun rest2 => c :: rest2)

/-- Array::linkValueInt (cwjson.cpp:212).  As in Object::linkValue, the
already-linked guard at cwjson.cpp:217-218 constructs a JsonError without
throwing it, so the valueIsLinked flag is carried but has no effect.
where = 0 appends at the back; where = 1 and 2 scan to the position. -/
def Array.linkValueInt (v : JVal) (valueIsLinked : Bool) (pos : Int) (wh : Nat)
    (l : List JVal) : Except Err (List JVal) :=
  if wh = 0 then .ok (l ++ [v]) else arrLinkLoop v wh pos 0 l

/-- Propagating a map over an Except result preserves error-ness. -/
theorem isErr_map {α β : Type} (f : α → β) (r : Except Err α) :
    isErr (r.map f) = isErr r := by cases r <;> rfl

/-- Scan lemma for Object::removeValue: when no child carries the name the
scan falls off the end of the list and, the function containing no throw,
the children are returned unchanged. -/
theorem object_remove_absent (l : List JVal) (nm : List Nat)
    (h : ∀ c ∈ l, c.name ≠ nm) : Object.removeValue nm l = l := by
  induction l with
  | nil => rfl
  | cons c rest ih =>
    have hc : c.name ≠ nm := h c (by simp)
    simp only [Object.removeValue, if_neg hc, List.cons.injEq, true_and]
    exact ih (fun q hq => h q (by simp [hq]))

/-- Scan lemma for Array::removeValue: a position at or past the counter
plus the list length is never reached, so the scan ends in the throw. -/
theorem arrRemoveLoop_oor (l : List JVal) : ∀ (pos i : Int),
    (l.length : Int) + i ≤ pos → arrRemoveLoop pos i l = .error .indexOutOfRange := by
  induction l with
  | nil => intro pos i _; rfl
  | cons c rest ih =>
    intro pos i h
    simp only [List.length_cons] at h
    have hlt : ¬ (i ≥ pos) := by push_cast at h; omega
    rw [arrRemoveLoop, if_neg hlt, ih pos (i + 1) (by push_cast at h ⊢; omega)]
    rfl

/-- Error characterisation of the Array::getValue scan, for any starting
counter: the throw is reached exactly when the list is empty or the
position is at least the counter plus the length. -/
theorem arrGetLoop_isErr (l : List JVal) : ∀ (idx i : Int),
    isErr (arrGetLoop idx i l) = true ↔ (l = [] ∨ (l.length : Int) + i ≤ idx) := by
  induction l with
  | nil => intro idx i; simp [arrGetLoop, isErr]
  | cons c rest ih =>
    intro idx i
    by_cases h : i ≥ idx
    · rw [arrGetLoop, if_pos h]
      simp only [isErr, List.cons_ne_nil, false_or, List.length_cons]
      constructor
      · intro hF; cases hF
      · intro hle; exfalso; push_cast at hle; omega
    · rw [arrGetLoop, if_neg h, ih idx (i + 1)]
      simp only [List.length_cons, List.cons_ne_nil, false_or]
      constructor
      · rintro (h0 | h1)
        · subst h0; simp only [List.length_nil]; push_cast; omega
        · push_cast at h1 ⊢; omega
      · intro hle
        rcases rest with _ | ⟨d, ds⟩
        · exact Or.inl rfl
        · right; simp only [List.length_cons] at hle ⊢; push_cast at hle ⊢; omega

/-- Error characterisation of the Array::removeValue scan. -/
theorem arrRemoveLoop_isErr (l : List JVal) : ∀ (pos i : Int),
    isErr (arrRemoveLoop pos i l) = true ↔ (l = [] ∨ (l.length : Int) + i ≤ pos) := by
  induction l with
  | nil => intro pos i; simp [arrRemoveLoop, isErr]
  | cons c rest ih =>
    intro pos i
    by_cases h : i ≥ pos
    · rw [arrRemoveLoop, if_pos h]
      simp only [isErr, List.cons_ne_nil, false_or, List.length_cons]
      constructor
      · intro hF; cases hF
      · intro hle; exfalso; push_cast at hle; omega
    · rw [arrRemoveLoop, if_neg h, isErr_map, ih pos (i + 1)]
      simp only [List.length_cons, List.cons_ne_nil, false_or]
      constructor
      · rintro (h0 | h1)
        · subst h0; simp only [List.length_nil]; push_cast; omega
        · push_cast at h1 ⊢; omega
      · intro hle
        rcases rest with _ | ⟨d, ds⟩
        · exact Or.inl rfl
        · right; simp only [List.length_cons] at hle ⊢; push_cast at hle ⊢; omega

/-- Error characterisation of the Array::linkValueInt scan, uniform in the
where-mode. -/
theorem arrLinkLoop_isErr (l : List JVal) : ∀ (v : JVal) (wh : Nat) (pos i : Int),
    isErr (arrLinkLoop v wh pos i l) = true ↔ (l = [] ∨ (l.length : Int) + i ≤ pos) := by
  induction l with
  | nil => intro v wh pos i; simp [arrLinkLoop, isErr]
  | cons c rest ih =>
    intro v wh pos i
    by_cases h : i ≥ pos
    · rw [arrLinkLoop, if_pos h]
      constructor
      · intro hF; by_cases h1 : wh = 1 <;> simp [h1, isErr] at hF
      · intro hle; exfalso
        simp only [List.cons_ne_nil, false_or, List.length_cons] at hle
        push_cast at hle; omega
    · rw [arrLinkLoop, if_neg h, isErr_map, ih v wh pos (i + 1)]
      simp only [List.length_cons, List.cons_ne_nil, false_or]
      constructor
      · rintro (h0 | h1)
        · subst h0; simp only [List.length_nil]; push_cast; omega
        · push_cast at h1 ⊢; omega
      · intro hle
        rcases rest with _ | ⟨d, ds⟩
        · exact Or.inl rfl
        · right; simp only [List.length_cons] at hle ⊢; push_cast at hle ⊢; omega

/-- Shape of the nodes a single Root::parse_value call inserts into its
parent when it throws: either nothing was inserted (the error arose
before or inside a scalar token), or exactly the one partially built
Object or Array that was linked in before its body failed. -/
theorem parse_value_error_shape (fuel : Nat) (name l : List Nat) (ins : List JVal)
    (out : Except Err (List Nat)) (hp : parse_value fuel name l = (ins, out))
    (he : isErr out = true) :
    ins = [] ∨ (∃ nm ch, ins = [JVal.obj nm ch]) ∨ (∃ nm ch, ins = [JVal.arr nm ch]) := by
  cases fuel with
  | zero =>
    simp only [parse_value] at hp
    cases hp
    left; rfl
  | succ fuel =>
    simp only [parse_value] at hp
    split at hp
    · split at hp
      · cases hp; right; left; exact ⟨_, _, rfl⟩
      · cases hp; right; left; exact ⟨_, _, rfl⟩
    · split at hp
      · split at hp
        · cases hp; right; right; exact ⟨_, _, rfl⟩
        · cases hp; right; right; exact ⟨_, _, rfl⟩
      · split at hp
        · split at hp
          · cases hp; left; rfl
          · cases hp; simp [isErr] at he
        · split at hp
          · split at hp
            · cases hp; simp [isErr] at he
            · cases hp; left; rfl
          · split at hp
            · split at hp
              · cases hp; simp [isErr] at he
              · cases hp; left; rfl
            · split at hp
              · split at hp
                · cases hp; simp [isErr] at he
                · cases hp; left; rfl
              · split at hp
                · split at hp
                  · cases hp; left; rfl
                  · cases hp; simp [isErr] at he
                · cases hp; left; rfl

/-- C1: the claim states that parsing into a Root that already holds a
value leaves exactly the newly parsed value as the only child.  Evaluating
the model at the failing input — parse the text 1, then parse the text 2
into the same Root — shows the opposite: Root::parse nulls m_firstChild
but resets neither m_lastChild nor m_length, so the second insert takes
the non-empty branch of Value::insertValueInt (writing through the
dangling m_lastChild), and afterwards firstChild() is null and
childCount() is 2 instead of the new value and 1. -/
theorem C1_reparse_corrupts_root :
    ((emptyRoot.parse [0x31]).1.parse [0x32]).2 = .ok [] ∧
    ((emptyRoot.parse [0x31]).1.parse [0x32]).1.first = none ∧
    ((emptyRoot.parse [0x31]).1.parse [0x32]).1.len = 2 := by
  refine ⟨?_, ?_, ?_⟩ <;> with_unfolding_all rfl

/-- C2 counterexample: the claim states that after any failed parse the
Root holds no partially built subtree.  Parsing the text [1,x into a
fresh Root throws UnexpectedCharacter at the x, yet the Root afterwards
holds the partially built array with the element 1, because the array was
linked into the Root before its elements were parsed. -/
theorem C2_failed_parse_retains_partial_tree :
    (emptyRoot.parse [0x5B, 0x31, 0x2C, 0x78, 0x5D]).2 = .error .unexpectedCharacter ∧
    (emptyRoot.parse [0x5B, 0x31, 0x2C, 0x78, 0x5D]).1.first = some (.arr [] [.num [] 1]) := by
  refine ⟨?_, ?_⟩ <;> with_unfolding_all rfl

/-- C2 amended: when parse throws, the previous child has still been
disposed first, and the Root afterwards holds either nothing or exactly
the partially built Object or Array of the aborted parse — never the
prior content and never a partial scalar — so a defined-empty state is
not guaranteed. -/
theorem C2_failed_parse_holds_partial_container_or_nothing (st : RootSt) (json : List Nat)
    (he : isErr (st.parse json).2 = true) :
    (st.parse json).1.first = none ∨
    (∃ nm ch, (st.parse json).1.first = some (JVal.obj nm ch)) ∨
    (∃ nm ch, (st.parse json).1.first = some (JVal.arr nm ch)) := by
  rcases hp : parse_value (parseFuel json) [] json with ⟨ins, out⟩
  have hout : (st.parse json).2 = out := by simp only [RootSt.parse, hp]
  have hst : (st.parse json).1 = ins.foldl insertValueIntRoot { st with first := none } := by
    simp only [RootSt.parse, hp]
  rw [hout] at he
  rw [hst]
  rcases parse_value_error_shape (parseFuel json) [] json ins out hp he with
    h0 | ⟨nm, ch, h1⟩ | ⟨nm, ch, h1⟩
  · subst h0; left; rfl
  · subst h1
    rcases hb : st.hasLast with _ | _
    · right; left
      exact ⟨nm, ch, by simp [insertValueIntRoot, hb]⟩
    · left; simp [insertValueIntRoot, hb]
  · subst h1
    rcases hb : st.hasLast with _ | _
    · right; right
      exact ⟨nm, ch, by simp [insertValueIntRoot, hb]⟩
    · left; simp [insertValueIntRoot, hb]

/-- Witness for the C2 amended theorem at the input consisting of the
single byte of an opening brace: the parse throws and the Root holds the
partially built empty object. -/
theorem C2_failed_parse_holds_partial_container_or_nothing_witness :
    isErr (emptyRoot.parse [0x7B]).2 = true ∧
    ((emptyRoot.parse [0x7B]).1.first = none ∨
     (∃ nm ch, (emptyRoot.parse [0x7B]).1.first = some (JVal.obj nm ch)) ∨
     (∃ nm ch, (emptyRoot.parse [0x7B]).1.first = some (JVal.arr nm ch))) :=
  ⟨by with_unfolding_all rfl,
   C2_failed_parse_holds_partial_container_or_nothing emptyRoot [0x7B]
     (by with_unfolding_all rfl)⟩

/-- C3: the claim states that linking an already-linked node fails with a
LinkageError and leaves the destination unchanged.  Evaluating the model
at the failing input shows the opposite: with the node flagged as already
linked (non-null m_parent, m_prev or m_next), Object::linkValue and
Array::linkValueInt still mutate the destination and no error occurs,
because the guard in the source constructs the JsonError object without a
throw keyword, so it is discarded and execution continues. -/
theorem C3_linked_guard_does_not_throw :
    Object.linkValue [0x61] (.num [] 1) true [] = [.num [0x61] 1] ∧
    Array.linkValueInt (.num [] 1) true 0 0 [] = .ok [.num [] 1] ∧
    Array.linkValueInt (.num [] 1) true 0 1 [.null []] = .ok [.num [] 1, .null []] := by
  refine ⟨?_, ?_, ?_⟩ <;> with_unfolding_all rfl

/-- C4 counterexample: the claim states that a high surrogate must be
followed by a low surrogate in 0xDC00..0xDFFF or parsing fails with
MissingSurrogatePair.  Parsing the string token with escapes uD83D then
u0041 — the second unit 0x41 is not in 0xDC00..0xDFFF — succeeds anyway
and combines the two units into the code point 0x1F441. -/
theorem C4_second_unit_not_validated :
    (emptyRoot.parse
        [0x22, 0x5C, 0x75, 0x44, 0x38, 0x33, 0x44, 0x5C, 0x75, 0x30, 0x30, 0x34, 0x31, 0x22]).2
      = .ok [] ∧
    (emptyRoot.parse
        [0x22, 0x5C, 0x75, 0x44, 0x38, 0x33, 0x44, 0x5C, 0x75, 0x30, 0x30, 0x34, 0x31, 0x22]).1.first
      = some (.str [] [0xF0, 0x9F, 0x91, 0x81]) := by
  refine ⟨?_, ?_⟩ <;> with_unfolding_all rfl

/-- C4 amended: a 16-bit unit in 0xD800..0xDBFF must be followed
immediately by a backslash and the letter u, otherwise parsing fails with
MissingSurrogatePair; the second 4-hex-digit unit is read but its value
is not validated against 0xDC00..0xDFFF, and whatever it is the two units
combine as 0x10000 + ((high AND 0x3FF) shifted left 10, OR low AND
0x3FF), UTF-8 encoded; in particular the escapes uD83D uDE00 decode to
the single code point U+1F600 as the 4-byte sequence F0 9F 98 80. -/
theorem C4_amended_surrogate_decoding :
    (∀ (l rest : List Nat) (u : Nat), parse_unicode l = .ok (u, rest) →
       0xD800 ≤ u → u ≤ 0xDBFF →
       (peek rest ≠ 0x5C ∨ peek (skip rest 1) ≠ 0x75) →
       parse_uescape l = .error .missingSurrogatePair) ∧
    (∀ (l rest rest2 : List Nat) (u u2 : Nat), parse_unicode l = .ok (u, rest) →
       0xD800 ≤ u → u ≤ 0xDBFF →
       peek rest = 0x5C → peek (skip rest 1) = 0x75 →
       parse_unicode (skip (skip rest 1) 1) = .ok (u2, rest2) →
       parse_uescape l =
         .ok (utf8bytes (0x10000 + (((u &&& 0x3FF) <<< 10) ||| (u2 &&& 0x3FF))), rest2)) ∧
    (emptyRoot.parse
        [0x22, 0x5C, 0x75, 0x44, 0x38, 0x33, 0x44, 0x5C, 0x75, 0x44, 0x45, 0x30, 0x30, 0x22]).1.first
      = some (.str [] [0xF0, 0x9F, 0x98, 0x80]) := by
  refine ⟨?_, ?_, by with_unfolding_all rfl⟩
  · intro l rest u h1 h2 h3 h4
    have hnot1 : ¬ ((0xDC00 ≤ u ∧ u ≤ 0xDFFF) ∨ u = 0) := by omega
    have hsur : 0xD800 ≤ u ∧ u ≤ 0xDBFF := ⟨h2, h3⟩
    simp only [parse_uescape, h1, if_neg hnot1, if_pos hsur]
    by_cases hb : peek rest ≠ 0x5C
    · rw [if_pos hb]
    · rcases h4 with h5 | h5
      · exact absurd h5 hb
      · rw [if_neg hb, if_pos h5]
  · intro l rest rest2 u u2 h1 h2 h3 h4 h5 h6
    have hnot1 : ¬ ((0xDC00 ≤ u ∧ u ≤ 0xDFFF) ∨ u = 0) := by omega
    have hsur : 0xD800 ≤ u ∧ u ≤ 0xDBFF := ⟨h2, h3⟩
    simp only [parse_uescape, h1, if_neg hnot1, if_pos hsur, h4, h5, h6]
    simp

/-- Witness for the C4 amended theorem: the four hex digits D83D alone
(nothing after them, so no backslash follows) fail with
MissingSurrogatePair, and D83D followed by the escape u0041 decodes to
the combined code point 0x1F441 even though 0x41 is not a low
surrogate. -/
theorem C4_amended_surrogate_decoding_witness :
    parse_uescape [0x44, 0x38, 0x33, 0x44] = .error .missingSurrogatePair ∧
    parse_uescape [0x44, 0x38, 0x33, 0x44, 0x5C, 0x75, 0x30, 0x30, 0x34, 0x31] =
      .ok ([0xF0, 0x9F, 0x91, 0x81], []) :=
  ⟨C4_amended_surrogate_decoding.1 [0x44, 0x38, 0x33, 0x44] [] 0xD83D
     (by with_unfolding_all rfl) (by norm_num) (by norm_num) (Or.inl (by decide)),
   (C4_amended_surrogate_decoding.2.1 [0x44, 0x38, 0x33, 0x44, 0x5C, 0x75, 0x30, 0x30, 0x34, 0x31]
     [0x5C, 0x75, 0x30, 0x30, 0x34, 0x31] [] 0xD83D 0x41
     (by with_unfolding_all rfl) (by norm_num) (by norm_num) (by decide) (by decide)
     (by with_unfolding_all rfl)).trans (by with_unfolding_all rfl)⟩

/-- C6: inserting or setting under a name already present among an
Object's children replaces the previous child in the same position via
Value::swapValueInt, leaving the children before and after it, and their
order, unchanged (Object::setValue clones and then calls the same
Object::linkValue, so this covers both operations). -/
theorem C6_object_replace_in_place (pre post : List JVal) (c v : JVal) (lk : Bool)
    (nm : List Nat) (hpre : ∀ p ∈ pre, p.name ≠ nm) (hc : c.name = nm) :
    Object.linkValue nm v lk (pre ++ c :: post) = pre ++ v.setName nm :: post := by
  induction pre with
  | nil => simp [Object.linkValue, hc]
  | cons p ps ih =>
    have hp : p.name ≠ nm := hpre p (by simp)
    simp only [List.cons_append, Object.linkValue, if_neg hp, List.cons.injEq, true_and]
    exact ih (fun q hq => hpre q (by simp [hq]))

/-- Witness for C6 at the spec example: in an object a maps to 1 and b
maps to 2, setting a to 3 yields a maps to 3 still in first position,
with b untouched. -/
theorem C6_object_replace_in_place_witness :
    (∀ p ∈ ([] : List JVal), p.name ≠ [0x61]) ∧ (JVal.num [0x61] 1).name = [0x61] ∧
    Object.linkValue [0x61] (.num [] 3) false [.num [0x61] 1, .num [0x62] 2] =
      [.num [0x61] 3, .num [0x62] 2] :=
  ⟨by simp, rfl,
   C6_object_replace_in_place [] [.num [0x62] 2] (.num [0x61] 1) (.num [] 3) false [0x61]
     (by simp) rfl⟩

/-- C7 counterexample: the claim states a trailing comma before a closing
bracket or brace fails with ExpectedDelimiter.  Parsing the text [1,]
does fail, but with UnexpectedCharacter — the element dispatch rejects
the closing bracket — and parsing a braced body with a trailing comma
fails with the expected-colon error, not ExpectedDelimiter. -/
theorem C7_trailing_comma_error_kind :
    (emptyRoot.parse [0x5B, 0x31, 0x2C, 0x5D]).2 = .error .unexpectedCharacter ∧
    (emptyRoot.parse [0x5B, 0x31, 0x2C, 0x5D]).2 ≠ .error .expectedDelimiterArray ∧
    (emptyRoot.parse [0x7B, 0x22, 0x61, 0x22, 0x3A, 0x31, 0x2C, 0x7D]).2
      = .error .expectedColon ∧
    (emptyRoot.parse [0x7B, 0x22, 0x61, 0x22, 0x3A, 0x31, 0x2C, 0x7D]).2
      ≠ .error .expectedDelimiterObject := by
  have h1 : (emptyRoot.parse [0x5B, 0x31, 0x2C, 0x5D]).2 = .error .unexpectedCharacter := by
    with_unfolding_all rfl
  have h2 : (emptyRoot.parse [0x7B, 0x22, 0x61, 0x22, 0x3A, 0x31, 0x2C, 0x7D]).2
      = .error .expectedColon := by
    with_unfolding_all rfl
  exact ⟨h1, by rw [h1]; simp, h2, by rw [h2]; simp⟩

/-- C7 amended: the empty braced and bracketed texts parse to an empty
Object and an empty Array with zero children; a trailing comma before the
closing bracket makes array parsing fail with UnexpectedCharacter (the
element dispatch rejects the bracket), and a trailing comma before the
closing brace makes object parsing fail with the expected-colon error
(the parser tries to read another key). -/
theorem C7_empty_containers_and_trailing_comma :
    (emptyRoot.parse [0x7B, 0x7D]).1 = ⟨some (.obj [] []), true, 1⟩ ∧
    (emptyRoot.parse [0x7B, 0x7D]).2 = .ok [] ∧
    (emptyRoot.parse [0x5B, 0x5D]).1 = ⟨some (.arr [] []), true, 1⟩ ∧
    (emptyRoot.parse [0x5B, 0x5D]).2 = .ok [] ∧
    (emptyRoot.parse [0x5B, 0x31, 0x2C, 0x5D]).2 = .error .unexpectedCharacter ∧
    (emptyRoot.parse [0x7B, 0x22, 0x61, 0x22, 0x3A, 0x31, 0x2C, 0x7D]).2
      = .error .expectedColon := by
  refine ⟨?_, ?_, ?_, ?_, ?_, ?_⟩ <;> with_unfolding_all rfl

/-- C9: removing an absent name from an Object is a silent no-op — the
scan contains no throw and the children are returned unchanged — while
Array::removeValue at a position at or past the child count ends its scan
in the index-out-of-range throw. -/
theorem C9_object_remove_missing_noop :
    (∀ (l : List JVal) (nm : List Nat), (∀ c ∈ l, c.name ≠ nm) →
       Object.removeValue nm l = l) ∧
    (∀ (l : List JVal) (pos : Int), (l.length : Int) ≤ pos →
       Array.removeValue pos l = .error .indexOutOfRange) :=
  ⟨object_remove_absent,
   fun l pos h => by rw [Array.removeValue]; exact arrRemoveLoop_oor l pos 0 (by omega)⟩

/-- Witness for C9: removing the name a from an object holding only b
leaves it unchanged, and removing position 1 from a one-element array
throws index out of range. -/
theorem C9_object_remove_missing_noop_witness :
    (∀ c ∈ [JVal.num [0x62] 2], c.name ≠ [0x61]) ∧
    Object.removeValue [0x61] [JVal.num [0x62] 2] = [JVal.num [0x62] 2] ∧
    (([JVal.null []].length : Int) ≤ 1 ∧
     Array.removeValue 1 [JVal.null []] = .error .indexOutOfRange) :=
  ⟨by decide,
   C9_object_remove_missing_noop.1 [JVal.num [0x62] 2] [0x61] (by decide),
   by simp,
   C9_object_remove_missing_noop.2 [JVal.null []] 1 (by simp)⟩

/-- C8: the scan condition of the source increments a counter that starts
at zero and compares it with the requested position using greater or
equal, so every negative index behaves like index zero: on a non-empty
array, getValue returns the first child, removeValue removes it,
insert-before splices in front of it and set replaces it; and for all
four operations the index-out-of-range throw happens exactly when the
index is at least the child count or the array is empty. -/
theorem C8_negative_index_acts_on_first_child :
    (∀ (c : JVal) (rest : List JVal) (idx : Int) (v : JVal) (lk : Bool), idx ≤ 0 →
       Array.getValue idx (c :: rest) = .ok c ∧
       Array.removeValue idx (c :: rest) = .ok rest ∧
       Array.linkValueInt v lk idx 1 (c :: rest) = .ok (v :: c :: rest) ∧
       Array.linkValueInt v lk idx 2 (c :: rest) = .ok (v :: rest)) ∧
    (∀ (l : List JVal) (idx : Int) (v : JVal) (lk : Bool),
       (isErr (Array.getValue idx l) = true ↔ (l = [] ∨ (l.length : Int) ≤ idx)) ∧
       (isErr (Array.removeValue idx l) = true ↔ (l = [] ∨ (l.length : Int) ≤ idx)) ∧
       (isErr (Array.linkValueInt v lk idx 1 l) = true ↔ (l = [] ∨ (l.length : Int) ≤ idx)) ∧
       (isErr (Array.linkValueInt v lk idx 2 l) = true ↔ (l = [] ∨ (l.length : Int) ≤ idx))) := by
  constructor
  · intro c rest idx v lk hidx
    have h0 : (0 : Int) ≥ idx := by omega
    refine ⟨?_, ?_, ?_, ?_⟩
    · rw [Array.getValue, arrGetLoop, if_pos h0]
    · rw [Array.removeValue, arrRemoveLoop, if_pos h0]
    · rw [Array.linkValueInt, if_neg (by norm_num), arrLinkLoop, if_pos h0, if_pos rfl]
    · rw [Array.linkValueInt, if_neg (by norm_num), arrLinkLoop, if_pos h0,
        if_neg (by norm_num)]
  · intro l idx v lk
    refine ⟨?_, ?_, ?_, ?_⟩
    · rw [Array.getValue, arrGetLoop_isErr l idx 0, add_zero]
    · rw [Array.removeValue, arrRemoveLoop_isErr l idx 0, add_zero]
    · rw [Array.linkValueInt, if_neg (by norm_num), arrLinkLoop_isErr l v 1 idx 0, add_zero]
    · rw [Array.linkValueInt, if_neg (by norm_num), arrLinkLoop_isErr l v 2 idx 0, add_zero]

/-- Witness for C8 at index -1 on a one-element array, plus the error
characterisation at index 3 on the same array. -/
theorem C8_negative_index_acts_on_first_child_witness :
    ((-1 : Int) ≤ 0 ∧
     Array.getValue (-1) [JVal.null []] = .ok (JVal.null []) ∧
     Array.removeValue (-1) [JVal.null []] = .ok [] ∧
     Array.linkValueInt (JVal.boolean [] true) false (-1) 1 [JVal.null []] =
       .ok [JVal.boolean [] true, JVal.null []] ∧
     Array.linkValueInt (JVal.boolean [] true) false (-1) 2 [JVal.null []] =
       .ok [JVal.boolean [] true]) ∧
    (isErr (Array.getValue 3 [JVal.null []]) = true ↔
      ([JVal.null []] = [] ∨ (([JVal.null []] : List JVal).length : Int) ≤ 3)) :=
  ⟨⟨by norm_num,
    C8_negative_index_acts_on_first_child.1 (JVal.null []) [] (-1) (JVal.boolean [] true)
      false (by norm_num)⟩,
   (C8_negative_index_acts_on_first_child.2 [JVal.null []] 3 (JVal.boolean [] true) false).1⟩

/-- C10: the number scanner requires no digit in the integral part, so
the texts consisting of a bare minus sign, or a minus sign followed by an
exponent with digits, parse successfully to the Number 0 (the sign
multiplies a zero accumulator; in the exact-arithmetic model negative
zero is zero) instead of being rejected. -/
theorem C10_digitless_number_tokens :
    parse_number [0x2D] = .ok (0, []) ∧
    parse_number [0x2D, 0x65, 0x35] = .ok (0, []) ∧
    (emptyRoot.parse [0x2D]).1.first = some (.num [] 0) ∧
    (emptyRoot.parse [0x2D]).2 = .ok [] ∧
    (emptyRoot.parse [0x2D, 0x65, 0x35]).1.first = some (.num [] 0) ∧
    (emptyRoot.parse [0x2D, 0x65, 0x35]).2 = .ok [] := by
  refine ⟨?_, ?_, ?_, ?_, ?_, ?_⟩ <;> with_unfolding_all rfl
